import Mathlib

/-!
Verification of the `redis-dumps` ingestion scripts (`h1b_to_redis.py`,
`stackexchange_to_redis.py`) against their natural-language specification.

The embedding models the Redis store shallowly, per key:

* hashes as association lists `List (String × α)` with first-match lookup;
* sorted sets as association lists member → score, where an add overwrites
  the score of an existing member (`zput`, modelling `ZADD`);
* plain sets as duplicate-free `List String` (`saddL`, modelling `SADD`);
* lists with index 0 at the head, so `LPUSH` is `List.cons` and
  `LTRIM 0 200` is `List.take 201`;
* numeric cell values are modelled as integers: the scripts never compute
  with them, they only parse, default, and forward them to the store.

Each Python function used by a claim is translated to a Lean definition of
the same name; the three Lua allocation scripts of `h1b_to_redis.py`
(employer / SOC / job), which are identical up to key names, are embedded
once as `allocate`.
-/

namespace RedisDumps

/-- First-match lookup in an association list, modelling Redis `HGET` /
`HEXISTS` and Python dictionary access. -/
def hlookup {α : Type} : List (String × α) → String → Option α
  | [], _ => none
  | (k, v) :: rest, key => if k = key then some v else hlookup rest key

/-- Overwrite-by-member add, modelling `ZADD` (and a single-field `HSET`):
if the member is present its value is replaced, otherwise the pair is
inserted.  The member set never acquires duplicates. -/
def zput {α : Type} : List (String × α) → String → α → List (String × α)
  | [], m, v => [(m, v)]
  | (k, w) :: t, m, v => if k = m then (m, v) :: t else (k, w) :: zput t m v

/-- `SADD` of one member: insert unless already present. -/
def saddL (l : List String) (x : String) : List String :=
  if x ∈ l then l else x :: l

/-- `ZINCRBY`: add `amt` to the member's score, treating a missing member
as score 0. -/
def zincrbyL (l : List (String × Int)) (m : String) (amt : Int) : List (String × Int) :=
  match hlookup l m with
  | some v => zput l m (v + amt)
  | none => (m, amt) :: l

/-- `LPUSH` of one value (index 0 is the head of the Lean list). -/
def lpushL {α : Type} (l : List α) (x : α) : List α := x :: l

/-- `LTRIM start stop` for non-negative indices. -/
def ltrimL {α : Type} (l : List α) (start stop : Nat) : List α :=
  (l.drop start).take (stop + 1 - start)

/-- The `lpush` + `ltrim 0 200` pair issued by `_import_post` for a tag's
`recent_questions` list. -/
def pushTrim {α : Type} (l : List α) (x : α) : List α :=
  ltrimL (lpushL l x) 0 200

/-! ### The dedup-id allocator (the employer / SOC / job Lua scripts) -/

/-- Server-side state touched by one allocation script: the
`<type>_name_to_id` hash, the `<type>_id_counter` string, the minimal
`<type>:<id>` entity hashes (field `name`; the `id` field is the index),
and the `<type>:<id>:wages_by_application` sorted sets, indexed here by the
entity id (the Redis key embeds the id in decimal, which is injective). -/
structure AllocState where
  name_to_id : List (String × Nat)
  counter : Nat
  entities : List (Nat × String)
  wages : Nat → List (String × Int)

/-- The store before any allocation: missing keys. -/
def alloc0 : AllocState :=
  { name_to_id := [], counter := 0, entities := [], wages := fun _ => [] }

/-- Embeds the body of the Lua script registered by
`_load_save_employer_script` (and its SOC / job twins, identical up to key
names): if the natural key exists in the name→id hash, fetch the existing
id, else increment the counter, record the new id, and create the minimal
entity hash; in both cases `ZADD` the caller's (application id, salary)
pair into the entity's `wages_by_application` sorted set. -/
def allocate (s : AllocState) (name appid : String) (salary : Int) : Nat × AllocState :=
  match hlookup s.name_to_id name with
  | some id =>
      (id, { s with
              wages := fun j => if j = id then zput (s.wages j) appid salary else s.wages j })
  | none =>
      let id := s.counter + 1
      (id, { name_to_id := (name, id) :: s.name_to_id
             counter := id
             entities := (id, name) :: s.entities
             wages := fun j => if j = id then zput (s.wages j) appid salary else s.wages j })

/-- One call-site of an allocation script: the natural key, the application
id, and the score (wage). -/
structure AllocReq where
  name : String
  appid : String
  salary : Int
deriving DecidableEq, Inhabited

/-- Run a sequence of allocation-script invocations, collecting the
returned ids. -/
def runAllocs : AllocState → List AllocReq → List Nat × AllocState
  | s, [] => ([], s)
  | s, r :: rest =>
      let p := allocate s r.name r.appid r.salary
      let q := runAllocs p.2 rest
      (p.1 :: q.1, q.2)

/-- The ids returned by a request sequence started on an empty store. -/
def allocIds (reqs : List AllocReq) : List Nat :=
  (runAllocs alloc0 reqs).1

/-! ### `h1b_to_redis.py` records and driver

A CSV cell is modelled by `Raw`: either a cell on which Python's
`float()` succeeds (its numeric value, restricted to integers — the
scripts never compute with the value) or any other string. -/

/-- A CSV cell as seen by `_coerce_float`. -/
inductive Raw where
  | num (v : Int)
  | nan (s : String)
deriving DecidableEq, Inhabited

/-- `_coerce_float(val, default)`: `float(val)`, or the default on any
parse failure. -/
def _coerce_float (val : Raw) (d : Option Int) : Option Int :=
  match val with
  | .num v => some v
  | .nan _ => d

/-- One data row of the CSV (after the header), in column order. -/
structure Row where
  id : String
  case_status : String
  employer_name : String
  soc_name : String
  job_title : String
  full_time_position : String
  prevailing_wage : Raw
  year : String
  worksite : String
  long : Raw
  lat : Raw
deriving DecidableEq, Inhabited

/-- The `Application` namedtuple after the three coercions of
`parse_applications`: wage defaulted to −1, coordinates defaulted to
`None`. -/
structure Application where
  id : String
  case_status : String
  employer_name : String
  soc_name : String
  job_title : String
  full_time_position : String
  prevailing_wage : Int
  year : String
  worksite : String
  long : Option Int
  lat : Option Int
deriving DecidableEq, Inhabited

/-- `parse_applications`: coerce the three numeric columns, build the
namedtuple, and yield it only when `application.id` is truthy (a
non-empty string). -/
def parse_applications (rows : List Row) : List Application :=
  rows.filterMap (fun r =>
    let a : Application :=
      { id := r.id, case_status := r.case_status, employer_name := r.employer_name,
        soc_name := r.soc_name, job_title := r.job_title,
        full_time_position := r.full_time_position,
        prevailing_wage := (_coerce_float r.prevailing_wage (some (-1))).getD (-1),
        year := r.year, worksite := r.worksite,
        long := _coerce_float r.long none, lat := _coerce_float r.lat none }
    if a.id = "" then none else some a)

/-- Python truthiness of a coerced float: `None` and `0.0` are falsy. -/
def truthyF : Option Int → Bool
  | none => false
  | some v => v != 0

/-- A command queued on the pipeline by `save_application`: the optional
`GEOADD`, the application `HMSET`, and the three allocation-script
invocations. -/
inductive H1BCmd where
  | geoadd (key : String) (long lat : Int) (member : String)
  | hmsetApp (id : String) (a : Application)
  | empScript (name appid : String) (salary : Int)
  | socScript (name appid : String) (salary : Int)
  | jobScript (name appid : String) (salary : Int)
deriving DecidableEq

/-- `save_application`: `GEOADD` only when `application.lat and
application.long` is truthy, then the application hash, then the
employer / SOC / job scripts. -/
def save_application (a : Application) : List H1BCmd :=
  (if truthyF a.lat && truthyF a.long then
    [H1BCmd.geoadd "application_location" (a.long.getD 0) (a.lat.getD 0) a.id]
  else [])
  ++ [H1BCmd.hmsetApp a.id a,
      H1BCmd.empScript a.employer_name a.id a.prevailing_wage,
      H1BCmd.socScript a.soc_name a.id a.prevailing_wage,
      H1BCmd.jobScript a.job_title a.id a.prevailing_wage]

/-- Store state touched by `h1b_to_redis.py`: the geo index (member →
(long, lat), overwrite-by-member), the `applications:<id>` hashes
(indexed by id; `HMSET` with the full record is an overwrite), and the
three allocator states. -/
structure H1BDB where
  geo : List (String × Int × Int)
  apps : String → Option Application
  emp : AllocState
  soc : AllocState
  job : AllocState

/-- The empty store. -/
def h1b0 : H1BDB :=
  { geo := [], apps := fun _ => none, emp := alloc0, soc := alloc0, job := alloc0 }

/-- Execute one queued command against the store. -/
def applyH1BCmd (db : H1BDB) : H1BCmd → H1BDB
  | .geoadd _ lo la m => { db with geo := zput db.geo m (lo, la) }
  | .hmsetApp i a => { db with apps := fun k => if k = i then some a else db.apps k }
  | .empScript n ap sal => { db with emp := (allocate db.emp n ap sal).2 }
  | .socScript n ap sal => { db with soc := (allocate db.soc n ap sal).2 }
  | .jobScript n ap sal => { db with job := (allocate db.job n ap sal).2 }

/-- `pipe.execute` for the h1b pipeline. -/
def runH1BCmds : H1BDB → List H1BCmd → H1BDB
  | db, [] => db
  | db, c :: rest => runH1BCmds (applyH1BCmd db c) rest

/-- `import_applications` = parse, then `import_in_batches` with
`save_application` (the final store state does not depend on the batch
boundaries, only on the command order, which is source order). -/
def import_applications (rows : List Row) (db : H1BDB) : H1BDB :=
  runH1BCmds db ((parse_applications rows).flatMap save_application)

/-- The employer-script invocations among a command list, in order. -/
def empReqs : List H1BCmd → List AllocReq
  | [] => []
  | .empScript n a v :: rest => ⟨n, a, v⟩ :: empReqs rest
  | _ :: rest => empReqs rest

/-- The SOC-script invocations among a command list, in order. -/
def socReqs : List H1BCmd → List AllocReq
  | [] => []
  | .socScript n a v :: rest => ⟨n, a, v⟩ :: socReqs rest
  | _ :: rest => socReqs rest

/-- The job-script invocations among a command list, in order. -/
def jobReqs : List H1BCmd → List AllocReq
  | [] => []
  | .jobScript n a v :: rest => ⟨n, a, v⟩ :: jobReqs rest
  | _ :: rest => jobReqs rest

/-! ### `stackexchange_to_redis.py`

Each `_import_*` callback receives a decoded record (an association list
from snake-cased attribute name to string value, as produced by the
`parse_rows` RecordSource adapter) and queues Redis commands on the
pipeline.  We embed a callback as a function from the record to the list
of queued commands; `none` models a raised `KeyError`/`ValueError`.
`pipe.execute` then applies the queued commands to the store in order. -/

/-- A Redis command queued on the pipeline by `stackexchange_to_redis.py`. -/
inductive SECmd where
  | hmset (key : String) (kvs : List (String × String))
  | zadd (key : String) (score : String) (member : String)
  | sadd (key : String) (member : String)
  | zincrby (key : String) (member : String) (amt : Int)
  | lpush (key : String) (val : String)
  | ltrim (key : String) (start stop : Nat)
deriving DecidableEq

/-- The store state touched by `stackexchange_to_redis.py`, per Redis key.
Scores written by `ZADD` arrive as strings and are stored verbatim; the
one key updated by `ZINCRBY` (`badges_by_popularity`) holds integer
scores and lives in `zcounts`.  The two families of keys are disjoint in
the script. -/
structure SEDB where
  hashes : String → List (String × String)
  zsets : String → List (String × String)
  zcounts : String → List (String × Int)
  sets : String → List String
  lists : String → List String

/-- The empty store. -/
def sedb0 : SEDB :=
  { hashes := fun _ => [], zsets := fun _ => [], zcounts := fun _ => [],
    sets := fun _ => [], lists := fun _ => [] }

/-- `HMSET`: set every given field. -/
def hmsetL (l : List (String × String)) (kvs : List (String × String)) :
    List (String × String) :=
  kvs.foldl (fun acc p => zput acc p.1 p.2) l

/-- Apply one queued command to the store. -/
def applySECmd (db : SEDB) : SECmd → SEDB
  | .hmset key kvs =>
      { db with hashes := fun k => if k = key then hmsetL (db.hashes k) kvs else db.hashes k }
  | .zadd key score member =>
      { db with zsets := fun k => if k = key then zput (db.zsets k) member score else db.zsets k }
  | .sadd key member =>
      { db with sets := fun k => if k = key then saddL (db.sets k) member else db.sets k }
  | .zincrby key member amt =>
      { db with zcounts := fun k => if k = key then zincrbyL (db.zcounts k) member amt else db.zcounts k }
  | .lpush key v =>
      { db with lists := fun k => if k = key then lpushL (db.lists k) v else db.lists k }
  | .ltrim key a b =>
      { db with lists := fun k => if k = key then ltrimL (db.lists k) a b else db.lists k }

/-- `pipe.execute`: apply the queued commands in order. -/
def runCmds : SEDB → List SECmd → SEDB
  | db, [] => db
  | db, c :: rest => runCmds (applySECmd db c) rest

/-- `_import_user_badge`: one badge record writes the user's badge set,
the badge's user set, and increments `badges_by_popularity` by 1. -/
def _import_user_badge (badge : List (String × String)) : Option (List SECmd) := do
  let uid ← hlookup badge "userid"
  let name ← hlookup badge "name"
  pure [SECmd.sadd ("users:" ++ uid ++ ":badges") name,
        SECmd.sadd ("badges:" ++ name ++ ":users") uid,
        SECmd.zincrby "badges_by_popularity" name 1]

/-- Python's `str.strip()`: remove leading and trailing whitespace. -/
def pyStrip (s : String) : String :=
  String.mk ((((s.toList.dropWhile Char.isWhitespace).reverse).dropWhile
    Char.isWhitespace).reverse)

/-- Digit-string accumulator for `pyInt`. -/
def parseDigitsAux : List Char → Nat → Option Nat
  | [], acc => some acc
  | c :: rest, acc =>
      if c.isDigit then parseDigitsAux rest (acc * 10 + (c.toNat - 48)) else none

/-- A non-empty all-digit string, as a number. -/
def parseDigits (cs : List Char) : Option Nat :=
  match cs with
  | [] => none
  | _ => parseDigitsAux cs 0

/-- Python's `int(s)`: an optional sign followed by digits; `none` models
the `ValueError` on anything else. -/
def pyInt (s : String) : Option Int :=
  match s.toList with
  | '-' :: rest => (parseDigits rest).map (fun n => -(n : Int))
  | '+' :: rest => (parseDigits rest).map (fun n => (n : Int))
  | cs => (parseDigits cs).map (fun n => (n : Int))

/-- `_post_type`: parse the discriminant `PostTypeId` with
`int(posttypeid.strip())`.  The outer `none` models the `ValueError` of
`int()` on a non-numeric string; the inner `none` is the "unsupported
type" result for codes other than 1 and 2. -/
def _post_type (posttypeid : String) : Option (Option String) :=
  match pyInt (pyStrip posttypeid) with
  | none => none
  | some n =>
      some (if n = 1 then some "questions" else if n = 2 then some "answers" else none)

/-- First stage of `_parse_tags`: Python's `replace("><", ",")`,
left-to-right and non-overlapping. -/
def replaceAngles : List Char → List Char
  | [] => []
  | '>' :: '<' :: rest => ',' :: replaceAngles rest
  | c :: rest => c :: replaceAngles rest

/-- Python's `str.split(",")`: at least one (possibly empty) token. -/
def splitComma : List Char → List (List Char)
  | [] => [[]]
  | ',' :: rest => [] :: splitComma rest
  | c :: rest =>
      match splitComma rest with
      | [] => [[c]]
      | t :: ts => (c :: t) :: ts

/-- `_parse_tags`: turn `"<a><b>"` into `["a", "b"]`; `none` when the
string is empty after stripping the angle brackets (Python returns
`None`, which is falsy). -/
def _parse_tags (tag_str : String) : Option (List String) :=
  let cs := (replaceAngles tag_str.toList).filter (fun c => !(c == '>') && !(c == '<'))
  if cs.isEmpty then none else some ((splitComma cs).map String.mk)

/-- The commands `_import_post` queues inside the per-tag loop for one
tag: ranked-set entries for score and (optionally) views, then the
`lpush`/`ltrim` pair on the tag's recency list. -/
def perTagCmds (post' : List (String × String)) (sc i : String) (tag : String) :
    List SECmd :=
  [SECmd.zadd ("tags:" ++ tag ++ ":questions_by_score") sc i]
  ++ (match hlookup post' "view_count" with
      | some vc => [SECmd.zadd ("tags:" ++ tag ++ ":questions_by_views") vc i]
      | none => [])
  ++ [SECmd.lpush ("tags:" ++ tag ++ ":recent_questions") i,
      SECmd.ltrim ("tags:" ++ tag ++ ":recent_questions") 0 200]

/-- The `'tags' in post` block of `_import_post`: parse and delete the
`tags` field, and for a question with a truthy tag list queue the tag
membership set and the per-tag index commands.  Returns the (possibly
shrunk) record and the queued commands; `none` models a `KeyError`. -/
def tagsBlock (post : List (String × String)) (post_type : String) :
    Option (List (String × String) × List SECmd) :=
  match hlookup post "tags" with
  | none => some (post, [])
  | some tagstr =>
      let post' := post.filter (fun p => p.1 != "tags")
      match _parse_tags tagstr, post_type == "questions" with
      | some tags, true => do
          let i ← hlookup post' "id"
          let sc ← hlookup post' "score"
          pure (post',
            tags.map (fun tag => SECmd.sadd ("questions:" ++ i ++ ":tags") tag)
            ++ tags.flatMap (perTagCmds post' sc i))
      | _, _ => some (post', [])

/-- The `'owneruserid' in post` block of `_import_post`. -/
def ownerBlock (post' : List (String × String)) (post_type : String) :
    Option (List SECmd) :=
  match hlookup post' "owneruserid" with
  | none => some []
  | some owner => do
      let i ← hlookup post' "id"
      let sc ← hlookup post' "score"
      let base := [SECmd.zadd ("users:" ++ owner ++ ":" ++ post_type ++ "_by_score") sc i]
      match hlookup post' "view_count", post_type == "questions" with
      | some vc, true =>
          pure (base ++ [SECmd.zadd ("users:" ++ owner ++ ":questions_by_views") vc i])
      | _, _ => pure base

/-- The trailing answer block of `_import_post`. -/
def ansCmds (post' : List (String × String)) (post_type i : String) : List SECmd :=
  match post_type == "answers", hlookup post' "parentid" with
  | true, some par => [SECmd.sadd ("questions:" ++ par ++ ":answers") i]
  | _, _ => []

/-- `_import_post`: commands queued for one post record; `none` models an
uncaught `KeyError`/`ValueError`.  Unsupported post types queue nothing. -/
def _import_post (post : List (String × String)) : Option (List SECmd) := do
  let ptid ← hlookup post "posttypeid"
  let pt? ← _post_type ptid
  match pt? with
  | none => pure []
  | some post_type => do
    let tagRes ← tagsBlock post post_type
    let ownerCs ← ownerBlock tagRes.1 post_type
    let i ← hlookup tagRes.1 "id"
    pure (tagRes.2 ++ ownerCs ++ [SECmd.hmset (post_type ++ ":" ++ i) tagRes.1]
      ++ ansCmds tagRes.1 post_type i)

/-- The key of a question's `linked_questions` set. -/
def lqKey (q : String) : String :=
  "questions:" ++ q ++ ":linked_questions"

/-- `_import_linked_post`: a post-link record adds each endpoint to the
other's `linked_questions` set. -/
def _import_linked_post (lp : List (String × String)) : Option (List SECmd) := do
  let a ← hlookup lp "postid"
  let b ← hlookup lp "relatedpostid"
  pure [SECmd.sadd (lqKey a) b, SECmd.sadd (lqKey b) a]

/-- Commands queued by a whole run of `import_in_batches`: the records'
command lists concatenated in source order; `none` when any record
raises.  (A raise actually halts the real run with the previous batches
already applied; no claim inspects that partial state.) -/
def cmdsOfAll {α : Type} (f : α → Option (List SECmd)) : List α → Option (List SECmd)
  | [] => some []
  | x :: xs => do
      let c ← f x
      let rest ← cmdsOfAll f xs
      pure (c ++ rest)

/-- `import_user_badges` (modulo the external XML RecordSource). -/
def import_user_badges (badges : List (List (String × String))) (db : SEDB) : Option SEDB :=
  (cmdsOfAll _import_user_badge badges).map (runCmds db)

/-- `import_posts` (modulo the external XML RecordSource). -/
def import_posts (posts : List (List (String × String))) (db : SEDB) : Option SEDB :=
  (cmdsOfAll _import_post posts).map (runCmds db)

/-- `import_linked_posts` (modulo the external XML RecordSource). -/
def import_linked_posts (lps : List (List (String × String))) (db : SEDB) : Option SEDB :=
  (cmdsOfAll _import_linked_post lps).map (runCmds db)

/-- Scenario A of the spec: two records with the same employer name and
wages 50000 / 60000, distinct application ids. -/
def scenarioA : List AllocReq :=
  [⟨"Acme", "A1", 50000⟩, ⟨"Acme", "A2", 60000⟩]

/-- A CSV row whose latitude cell parses to 0 (present and non-null, but
falsy in Python). -/
def c6row : Row :=
  ⟨"A1", "CERTIFIED", "Acme", "Software Devs", "Dev", "Y",
    Raw.num 50000, "2016", "NY", Raw.num 5, Raw.num 0⟩

/-- A CSV row with an empty identifying field. -/
def c7row : Row :=
  ⟨"", "CERTIFIED", "Acme", "Software Devs", "Dev", "Y",
    Raw.num 50000, "2016", "NY", Raw.nan "NA", Raw.nan "NA"⟩

/-- A post record of supported type 1 that lacks its `Id` attribute. -/
def c7post : List (String × String) := [("posttypeid", "1")]

/-- A tagged, owned post record of supported type 2 that lacks its `Id`
attribute. -/
def c7post2 : List (String × String) :=
  [("posttypeid", "2"), ("tags", "<a><b>"), ("owneruserid", "5"), ("score", "3")]

/-- Scenario B of the spec: a row whose wage cell is the unparsable
string `"N/A"`. -/
def c8row : Row :=
  ⟨"A1", "CERTIFIED", "Acme", "Software Devs", "Dev", "Y",
    Raw.nan "N/A", "2016", "NY", Raw.nan "NA", Raw.nan "NA"⟩

/-- A post record with an unsupported post-type code. -/
def c9skip : List (String × String) := [("posttypeid", "3"), ("id", "7")]

/-- A question record (code 1). -/
def c9q : List (String × String) := [("posttypeid", "1"), ("id", "7")]

/-- An answer record (code 2). -/
def c9a : List (String × String) := [("posttypeid", "2"), ("id", "8")]

/-- One post-link record connecting questions 3 and 4. -/
def c10links : List (List (String × String)) :=
  [[("postid", "3"), ("relatedpostid", "4")]]

/-- The store after ingesting `c10links`. -/
def c10db : SEDB :=
  runCmds sedb0 [SECmd.sadd (lqKey "3") "4", SECmd.sadd (lqKey "4") "3"]

/-- One badge record. -/
def c5badge : List (String × String) := [("userid", "7"), ("name", "Gold")]

/-! ### Write-trace characterisations used for the re-run analysis -/

/-- The last `ZADD` in a command list writing member `m` of zset `k`. -/
def lastZ : List SECmd → String → String → Option String
  | [], _, _ => none
  | SECmd.zadd k' sc m' :: rest, k, m =>
      match lastZ rest k m with
      | some v => some v
      | none => if k = k' ∧ m = m' then some sc else none
  | _ :: rest, k, m => lastZ rest k m

/-- Whether a command list contains `SADD k x`. -/
def hasSadd : List SECmd → String → String → Prop
  | [], _, _ => False
  | SECmd.sadd k' x' :: rest, k, x => (k = k' ∧ x = x') ∨ hasSadd rest k x
  | _ :: rest, k, x => hasSadd rest k x

/-- Whether a command list contains a `ZINCRBY` of member `m` of `k`. -/
def hasIncr : List SECmd → String → String → Bool
  | [], _, _ => false
  | SECmd.zincrby k' m' _ :: rest, k, m =>
      (k = k' && m = m') || hasIncr rest k m
  | _ :: rest, k, m => hasIncr rest k m

/-- Total `ZINCRBY` amount applied to member `m` of `k`. -/
def incrSum : List SECmd → String → String → Int
  | [], _, _ => 0
  | SECmd.zincrby k' m' amt :: rest, k, m =>
      (if k = k' ∧ m = m' then amt else 0) + incrSum rest k m
  | _ :: rest, k, m => incrSum rest k m

/-- The geo writes of an h1b command list, in order. -/
def geoWrites : List H1BCmd → List (String × Int × Int)
  | [] => []
  | H1BCmd.geoadd _ lo la m :: rest => (m, lo, la) :: geoWrites rest
  | _ :: rest => geoWrites rest

/-- The last overwrite of member `m` in a put trace. -/
def lastPut {α : Type} : List (String × α) → String → Option α
  | [], _ => none
  | (m', v) :: rest, m =>
      match lastPut rest m with
      | some w => some w
      | none => if m = m' then some v else none

/-- Apply a put trace in order (overwrite-by-member). -/
def putAll {α : Type} : List (String × α) → List (String × α) → List (String × α)
  | l, [] => l
  | l, (m, v) :: rest => putAll (zput l m v) rest

/-- The wage writes of an allocation-request run, with each request's
natural key resolved through a (final) name→id map. -/
def resolveReqs (t : List (String × Nat)) (reqs : List AllocReq) :
    List (Nat × String × Int) :=
  reqs.map (fun r => ((hlookup t r.name).getD 0, r.appid, r.salary))

/-- Apply a wage-write trace in order. -/
def applyW : (Nat → List (String × Int)) → List (Nat × String × Int) →
    Nat → List (String × Int)
  | w, [] => w
  | w, (e, m, v) :: rest =>
      applyW (fun j => if j = e then zput (w j) m v else w j) rest

/-- The last wage write for member `m` of entity `e` in a trace. -/
def lastW : List (Nat × String × Int) → Nat → String → Option Int
  | [], _, _ => none
  | (e', m', v) :: rest, e, m =>
      match lastW rest e m with
      | some w => some w
      | none => if e = e' ∧ m = m' then some v else none

/-- First ingestion run of the h1b pipeline. -/
def h1bRun1 (rows : List Row) : H1BDB :=
  import_applications rows h1b0

/-- Second ingestion run over the same unchanged source. -/
def h1bRun2 (rows : List Row) : H1BDB :=
  import_applications rows (h1bRun1 rows)

/-- A one-row h1b source. -/
def c5rows : List Row := [c8row]

/-- First badge ingestion run. -/
def badgeRun1 : Option SEDB := import_user_badges [c5badge] sedb0

/-- Second badge ingestion run over the same source. -/
def badgeRun2 : Option SEDB := badgeRun1.bind (import_user_badges [c5badge])

/-- The `badges_by_popularity` score of `"Gold"` after a run. -/
def badgeScore (o : Option SEDB) : Option (Option Int) :=
  o.map (fun db => hlookup (db.zcounts "badges_by_popularity") "Gold")

/-- A one-record post source. -/
def c5posts : List (List (String × String)) := [c9q]

/-- The store after one posts run over `c5posts`. -/
def c5se1 : SEDB := runCmds sedb0 [SECmd.hmset "questions:7" c9q]

/-- The store after re-running the same posts source. -/
def c5se2 : SEDB := runCmds c5se1 [SECmd.hmset "questions:7" c9q]

/-- Three allocations: a repeated natural key with an unrelated allocation
in between. -/
def exampleReqs : List AllocReq :=
  [⟨"Acme", "1", 50⟩, ⟨"Beta", "2", 60⟩, ⟨"Acme", "3", 70⟩]

/-! ### Basic lookup lemmas -/

lemma hlookup_eq_none {α : Type} (l : List (String × α)) (k : String) :
    hlookup l k = none ↔ k ∉ l.map Prod.fst := by
  induction l with
  | nil => simp [hlookup]
  | cons p t ih =>
      obtain ⟨a, b⟩ := p
      by_cases h : a = k
      · subst h
        simp [hlookup]
      · simp [hlookup, h, ih, Ne.symm h]

lemma hlookup_isSome {α : Type} (l : List (String × α)) (k : String) :
    (hlookup l k).isSome = true ↔ k ∈ l.map Prod.fst := by
  rw [Option.isSome_iff_ne_none, ne_eq, hlookup_eq_none]
  exact not_not

lemma zput_self {α : Type} (l : List (String × α)) (m : String) (v : α) :
    hlookup (zput l m v) m = some v := by
  induction l with
  | nil => simp [zput, hlookup]
  | cons p t ih =>
      obtain ⟨a, b⟩ := p
      by_cases hak : a = m
      · simp [zput, hak, hlookup]
      · simp [zput, hak, hlookup, ih]

lemma zput_other {α : Type} (l : List (String × α)) (m k : String) (v : α) (hk : k ≠ m) :
    hlookup (zput l m v) k = hlookup l k := by
  induction l with
  | nil => simp [zput, hlookup, Ne.symm hk]
  | cons p t ih =>
      obtain ⟨a, b⟩ := p
      by_cases hak : a = m
      · subst hak
        simp [zput, hlookup, Ne.symm hk]
      · by_cases hk2 : a = k <;> simp [zput, hak, hlookup, hk2, ih, hk]

/-! ### Allocator step lemmas -/

lemma allocate_fst_seen (s : AllocState) (n a : String) (v : Int) (i : Nat)
    (h : hlookup s.name_to_id n = some i) : (allocate s n a v).1 = i := by
  simp [allocate, h]

lemma allocate_fst_new (s : AllocState) (n a : String) (v : Int)
    (h : hlookup s.name_to_id n = none) : (allocate s n a v).1 = s.counter + 1 := by
  simp [allocate, h]

lemma allocate_name_to_id_seen (s : AllocState) (n a : String) (v : Int) (i : Nat)
    (h : hlookup s.name_to_id n = some i) :
    (allocate s n a v).2.name_to_id = s.name_to_id := by
  simp [allocate, h]

lemma allocate_name_to_id_new (s : AllocState) (n a : String) (v : Int)
    (h : hlookup s.name_to_id n = none) :
    (allocate s n a v).2.name_to_id = (n, s.counter + 1) :: s.name_to_id := by
  simp [allocate, h]

lemma allocate_counter_seen (s : AllocState) (n a : String) (v : Int) (i : Nat)
    (h : hlookup s.name_to_id n = some i) :
    (allocate s n a v).2.counter = s.counter := by
  simp [allocate, h]

lemma allocate_counter_new (s : AllocState) (n a : String) (v : Int)
    (h : hlookup s.name_to_id n = none) :
    (allocate s n a v).2.counter = s.counter + 1 := by
  simp [allocate, h]

lemma allocate_entities_seen (s : AllocState) (n a : String) (v : Int) (i : Nat)
    (h : hlookup s.name_to_id n = some i) :
    (allocate s n a v).2.entities = s.entities := by
  simp [allocate, h]

lemma allocate_entities_new (s : AllocState) (n a : String) (v : Int)
    (h : hlookup s.name_to_id n = none) :
    (allocate s n a v).2.entities = (s.counter + 1, n) :: s.entities := by
  simp [allocate, h]

lemma allocate_wages (s : AllocState) (n a : String) (v : Int) :
    (allocate s n a v).2.wages =
      fun j => if j = (allocate s n a v).1 then zput (s.wages j) a v else s.wages j := by
  cases h : hlookup s.name_to_id n <;> simp [allocate, h]

/-- Right after an allocation the natural key maps to the returned id. -/
lemma allocate_lookup_self (s : AllocState) (n a : String) (v : Int) :
    hlookup (allocate s n a v).2.name_to_id n = some (allocate s n a v).1 := by
  cases h : hlookup s.name_to_id n with
  | some id =>
      rw [allocate_name_to_id_seen s n a v id h, allocate_fst_seen s n a v id h, h]
  | none =>
      rw [allocate_name_to_id_new s n a v h, allocate_fst_new s n a v h]
      simp [hlookup]

/-- An allocation never disturbs an existing name→id binding. -/
lemma allocate_lookup_mono (s : AllocState) (n a : String) (v : Int)
    (k : String) (i : Nat) (h : hlookup s.name_to_id k = some i) :
    hlookup (allocate s n a v).2.name_to_id k = some i := by
  cases hn : hlookup s.name_to_id n with
  | some id => rw [allocate_name_to_id_seen s n a v id hn]; exact h
  | none =>
      have hkn : n ≠ k := by
        intro he; rw [he, h] at hn; cases hn
      rw [allocate_name_to_id_new s n a v hn]
      simp [hlookup, hkn, h]

/-- A run of allocations never disturbs an existing name→id binding. -/
lemma runAllocs_lookup_mono (reqs : List AllocReq) (s : AllocState)
    (k : String) (i : Nat) (h : hlookup s.name_to_id k = some i) :
    hlookup (runAllocs s reqs).2.name_to_id k = some i := by
  induction reqs generalizing s with
  | nil => simpa [runAllocs] using h
  | cons r rest ih =>
      simp only [runAllocs]
      exact ih _ (allocate_lookup_mono _ _ _ _ _ _ h)

/-- Each returned id is the final binding of the request's natural key. -/
lemma runAllocs_lookup_getD (reqs : List AllocReq) (s : AllocState)
    (i : Nat) (hi : i < reqs.length) :
    hlookup (runAllocs s reqs).2.name_to_id (reqs.getD i default).name
      = some ((runAllocs s reqs).1.getD i 0) := by
  induction reqs generalizing s i with
  | nil => simp at hi
  | cons r rest ih =>
      cases i with
      | zero =>
          simp only [runAllocs, List.getD_cons_zero]
          exact runAllocs_lookup_mono rest _ _ _ (allocate_lookup_self s r.name r.appid r.salary)
      | succ j =>
          simp only [runAllocs, List.getD_cons_succ]
          exact ih _ j (by simpa using Nat.lt_of_succ_lt_succ hi)

/-! ### The allocator invariant -/

/-- Invariant of an allocator state: ids are bounded by the counter, the
name→id map is injective, has no duplicate keys, and its size equals the
counter. -/
def AllocInv (s : AllocState) : Prop :=
  (∀ k i, hlookup s.name_to_id k = some i → i ≤ s.counter)
  ∧ (∀ k k' i, hlookup s.name_to_id k = some i → hlookup s.name_to_id k' = some i → k = k')
  ∧ (s.name_to_id.map Prod.fst).Nodup
  ∧ s.counter = s.name_to_id.length

lemma allocInv_alloc0 : AllocInv alloc0 := by
  refine ⟨?_, ?_, ?_, ?_⟩ <;> simp [alloc0, hlookup]

lemma allocInv_allocate (s : AllocState) (n a : String) (v : Int)
    (h : AllocInv s) : AllocInv (allocate s n a v).2 := by
  obtain ⟨hbd, hinj, hnd, hct⟩ := h
  cases hn : hlookup s.name_to_id n with
  | some id =>
      rw [AllocInv, allocate_name_to_id_seen s n a v id hn,
        allocate_counter_seen s n a v id hn]
      exact ⟨hbd, hinj, hnd, hct⟩
  | none =>
      have hnotmem : n ∉ s.name_to_id.map Prod.fst := (hlookup_eq_none _ _).mp hn
      rw [AllocInv, allocate_name_to_id_new s n a v hn, allocate_counter_new s n a v hn]
      refine ⟨?_, ?_, ?_, ?_⟩
      · intro k i hk
        by_cases hkn : n = k
        · simp only [hlookup, hkn, if_true, Option.some.injEq] at hk
          omega
        · simp only [hlookup, hkn, if_false] at hk
          exact le_trans (hbd k i hk) (Nat.le_succ _)
      · intro k k' i hk hk'
        by_cases hkn : n = k <;> by_cases hkn' : n = k'
        · rw [← hkn, hkn']
        · simp only [hlookup, hkn, if_true, Option.some.injEq] at hk
          simp only [hlookup, hkn', if_false] at hk'
          have := hbd k' i hk'
          omega
        · simp only [hlookup, hkn, if_false] at hk
          simp only [hlookup, hkn', if_true, Option.some.injEq] at hk'
          have := hbd k i hk
          omega
        · simp only [hlookup, hkn, if_false] at hk
          simp only [hlookup, hkn', if_false] at hk'
          exact hinj k k' i hk hk'
      · simpa [hnotmem] using hnd
      · simp [hct]

lemma allocInv_runAllocs (reqs : List AllocReq) (s : AllocState)
    (h : AllocInv s) : AllocInv (runAllocs s reqs).2 := by
  induction reqs generalizing s with
  | nil => simpa [runAllocs] using h
  | cons r rest ih =>
      simp only [runAllocs]
      exact ih _ (allocInv_allocate _ _ _ _ h)

lemma allocate_mem_iff (s : AllocState) (n a : String) (v : Int) (k : String) :
    (hlookup (allocate s n a v).2.name_to_id k).isSome = true
      ↔ (hlookup s.name_to_id k).isSome = true ∨ k = n := by
  cases hn : hlookup s.name_to_id n with
  | some id =>
      rw [allocate_name_to_id_seen s n a v id hn]
      constructor
      · exact Or.inl
      · rintro (h | rfl)
        · exact h
        · rw [hn]; rfl
  | none =>
      rw [allocate_name_to_id_new s n a v hn]
      by_cases hkn : n = k
      · subst hkn
        simp [hlookup]
      · simp [hlookup, hkn, Ne.symm hkn]

lemma runAllocs_mem_iff (reqs : List AllocReq) (s : AllocState) (k : String) :
    (hlookup (runAllocs s reqs).2.name_to_id k).isSome = true
      ↔ (hlookup s.name_to_id k).isSome = true ∨ k ∈ reqs.map AllocReq.name := by
  induction reqs generalizing s with
  | nil => simp [runAllocs]
  | cons r rest ih =>
      simp only [runAllocs, List.map_cons, List.mem_cons]
      rw [ih, allocate_mem_iff]
      tauto

lemma allocate_counter_le (s : AllocState) (n a : String) (v : Int) :
    s.counter ≤ (allocate s n a v).2.counter := by
  cases hn : hlookup s.name_to_id n with
  | some id => rw [allocate_counter_seen s n a v id hn]
  | none => rw [allocate_counter_new s n a v hn]; omega

lemma runAllocs_counter_le (reqs : List AllocReq) (s : AllocState) :
    s.counter ≤ (runAllocs s reqs).2.counter := by
  induction reqs generalizing s with
  | nil => simp [runAllocs]
  | cons r rest ih =>
      simp only [runAllocs]
      exact le_trans (allocate_counter_le _ _ _ _) (ih _)

lemma runAllocs_counter_eq_distinct (reqs : List AllocReq) :
    (runAllocs alloc0 reqs).2.counter = (reqs.map AllocReq.name).dedup.length := by
  obtain ⟨-, -, hnd, hct⟩ := allocInv_runAllocs reqs alloc0 allocInv_alloc0
  have hmem : ∀ k, k ∈ (runAllocs alloc0 reqs).2.name_to_id.map Prod.fst
      ↔ k ∈ reqs.map AllocReq.name := by
    intro k
    rw [← hlookup_isSome, runAllocs_mem_iff]
    simp [alloc0, hlookup]
  have hfin : ((runAllocs alloc0 reqs).2.name_to_id.map Prod.fst).toFinset
      = (reqs.map AllocReq.name).toFinset := by
    ext k
    simp only [List.mem_toFinset]
    exact hmem k
  calc (runAllocs alloc0 reqs).2.counter
      = ((runAllocs alloc0 reqs).2.name_to_id.map Prod.fst).length := by
        rw [hct]; simp
    _ = ((runAllocs alloc0 reqs).2.name_to_id.map Prod.fst).dedup.length := by
        rw [List.dedup_eq_self.mpr hnd]
    _ = ((runAllocs alloc0 reqs).2.name_to_id.map Prod.fst).toFinset.card :=
        (List.card_toFinset _).symm
    _ = (reqs.map AllocReq.name).toFinset.card := by rw [hfin]
    _ = (reqs.map AllocReq.name).dedup.length := List.card_toFinset _

/-! ### Claim theorems C1 – C3 -/

/-- C1: for the allocate operation (the employer/SOC/job Lua scripts), ids
are unique per natural key: two requests with distinct natural keys get
distinct ids, and two requests with the same natural key get the same id,
even when unrelated allocations happen in between. -/
theorem allocator_ids_unique (reqs : List AllocReq) (i j : Nat)
    (hi : i < reqs.length) (hj : j < reqs.length) :
    ((reqs.getD i default).name = (reqs.getD j default).name →
      (allocIds reqs).getD i 0 = (allocIds reqs).getD j 0)
    ∧ ((reqs.getD i default).name ≠ (reqs.getD j default).name →
      (allocIds reqs).getD i 0 ≠ (allocIds reqs).getD j 0) := by
  have hchi := runAllocs_lookup_getD reqs alloc0 i hi
  have hchj := runAllocs_lookup_getD reqs alloc0 j hj
  have hinv := allocInv_runAllocs reqs alloc0 allocInv_alloc0
  constructor
  · intro hname
    rw [hname] at hchi
    exact Option.some.inj (hchi.symm.trans hchj)
  · intro hname heq
    apply hname
    refine hinv.2.1 _ _ ((allocIds reqs).getD i 0) hchi ?_
    rw [heq]
    exact hchj

/-- Concrete witness for C1: a repeated key separated by an unrelated
allocation returns the same id, and distinct keys return distinct ids. -/
theorem allocator_ids_unique_witness :
    (allocIds exampleReqs).getD 0 0 = (allocIds exampleReqs).getD 2 0
    ∧ (allocIds exampleReqs).getD 0 0 ≠ (allocIds exampleReqs).getD 1 0 :=
  ⟨(allocator_ids_unique exampleReqs 0 2 (by decide) (by decide)).1 (by decide),
   (allocator_ids_unique exampleReqs 0 1 (by decide) (by decide)).2 (by decide)⟩

/-- C2: the id counter never decreases, stays unchanged when the natural
key is already in the name→id map, increases by exactly 1 when the key is
new, and after any run from the empty store equals the number of distinct
natural keys seen. -/
theorem counter_monotone_counts_distinct (s : AllocState) (n a : String) (v : Int)
    (reqs : List AllocReq) :
    s.counter ≤ (allocate s n a v).2.counter
    ∧ ((hlookup s.name_to_id n).isSome = true → (allocate s n a v).2.counter = s.counter)
    ∧ (hlookup s.name_to_id n = none → (allocate s n a v).2.counter = s.counter + 1)
    ∧ s.counter ≤ (runAllocs s reqs).2.counter
    ∧ (runAllocs alloc0 reqs).2.counter = (reqs.map AllocReq.name).dedup.length := by
  refine ⟨allocate_counter_le s n a v, ?_, ?_,
    runAllocs_counter_le reqs s, runAllocs_counter_eq_distinct reqs⟩
  · intro h
    obtain ⟨id, hid⟩ := Option.isSome_iff_exists.mp h
    exact allocate_counter_seen s n a v id hid
  · intro h
    exact allocate_counter_new s n a v h

/-- Concrete witness for C2: three allocations with two distinct names
leave the counter at 2, and a first-sight allocation bumps the counter
by exactly 1. -/
theorem counter_monotone_counts_distinct_witness :
    (runAllocs alloc0 exampleReqs).2.counter = 2
    ∧ (allocate alloc0 "Acme" "A1" 50).2.counter = alloc0.counter + 1 :=
  ⟨(counter_monotone_counts_distinct alloc0 "x" "y" 0 exampleReqs).2.2.2.2.trans (by decide),
   (counter_monotone_counts_distinct alloc0 "Acme" "A1" 50 exampleReqs).2.2.1 (by decide)⟩

/-- C3: every allocation writes the caller's score into the entity's
`wages_by_application` sorted set under the resolved id, on both branches;
in particular (Scenario A) two records with employer name `"Acme"` and
wages 50000 / 60000 leave the counter at 1, map `"Acme"` to id 1, and the
ranked set of employer 1 holds both application ids with their scores. -/
theorem alloc_score_written_both_branches (s : AllocState) (n a : String) (v : Int) :
    hlookup ((allocate s n a v).2.wages (allocate s n a v).1) a = some v
    ∧ (runAllocs alloc0 scenarioA).2.counter = 1
    ∧ hlookup (runAllocs alloc0 scenarioA).2.name_to_id "Acme" = some 1
    ∧ hlookup ((runAllocs alloc0 scenarioA).2.wages 1) "A1" = some 50000
    ∧ hlookup ((runAllocs alloc0 scenarioA).2.wages 1) "A2" = some 60000 := by
  refine ⟨?_, by decide, by decide, by decide, by decide⟩
  rw [allocate_wages]
  simp [zput_self]

/-! ### The bounded recency list (C4) -/

lemma pushTrim_eq_take {α : Type} (l : List α) (x : α) :
    pushTrim l x = (x :: l).take 201 := by
  simp [pushTrim, ltrimL, lpushL]

/-- The `lpush`/`ltrim 0 200` command pair queued by `_import_post` acts
on the key's list exactly as `pushTrim`. -/
lemma applySECmd_lpush_ltrim (db : SEDB) (key : String) (v : String) :
    (applySECmd (applySECmd db (SECmd.lpush key v)) (SECmd.ltrim key 0 200)).lists key
      = pushTrim (db.lists key) v := by
  simp [applySECmd, pushTrim]

lemma take_append_take {α : Type} (A B : List α) (n : Nat) :
    (A ++ B.take n).take n = (A ++ B).take n := by
  rw [List.take_append_eq_append_take, List.take_append_eq_append_take, List.take_take,
    Nat.min_eq_left (Nat.sub_le n A.length)]

lemma foldl_pushTrim {α : Type} (p : List α) (l : List α) (h : l.length ≤ 201) :
    p.foldl pushTrim l = (p.reverse ++ l).take 201 := by
  induction p generalizing l with
  | nil =>
      simp [List.take_of_length_le h]
  | cons x xs ih =>
      have hlen : (pushTrim l x).length ≤ 201 := by
        rw [pushTrim_eq_take]
        exact List.length_take_le 201 (x :: l)
      rw [List.foldl_cons, ih (pushTrim l x) hlen, pushTrim_eq_take,
        take_append_take, List.reverse_cons, List.append_assoc]
      rfl

set_option maxRecDepth 4000 in
/-- C4: after any sequence of pushes, a tag's bounded recency list never
holds more than 201 entries and holds exactly the most recently pushed
ids (head = most recent, so its reverse is a suffix of the push sequence
in push order); after pushing 1..250 in order it holds exactly 50..250. -/
theorem recency_list_bounded (pushes : List Nat) :
    (pushes.foldl pushTrim ([] : List Nat)).length ≤ 201
    ∧ pushes.foldl pushTrim ([] : List Nat) = pushes.reverse.take 201
    ∧ ((List.range' 1 250).foldl pushTrim ([] : List Nat)).reverse = List.range' 50 201 := by
  have hmain : pushes.foldl pushTrim ([] : List Nat) = pushes.reverse.take 201 := by
    simpa using foldl_pushTrim pushes [] (by simp)
  refine ⟨?_, hmain, by decide⟩
  rw [hmain]
  exact List.length_take_le 201 pushes.reverse

/-! ### h1b command-stream projections -/

lemma empReqs_append (l1 l2 : List H1BCmd) :
    empReqs (l1 ++ l2) = empReqs l1 ++ empReqs l2 := by
  induction l1 with
  | nil => simp [empReqs]
  | cons c rest ih => cases c <;> simp [empReqs, ih]

lemma runH1BCmds_emp (cmds : List H1BCmd) (db : H1BDB) :
    (runH1BCmds db cmds).emp = (runAllocs db.emp (empReqs cmds)).2 := by
  induction cmds generalizing db with
  | nil => simp [runH1BCmds, empReqs, runAllocs]
  | cons c rest ih =>
      cases c <;> simp [runH1BCmds, applyH1BCmd, empReqs, runAllocs, ih]

/-! ### Claim theorems C6 – C8 -/

/-- C6 counterexample: `c6row` has latitude cell `0` — present and
non-null — yet the `if application.lat and application.long:` guard of
`save_application` treats `0.0` as falsy, so no geo point is written
(while the record itself is kept). -/
theorem geo_skipped_on_zero_counterexample :
    ((parse_applications [c6row]).getD 0 default).lat = some 0
    ∧ ((parse_applications [c6row]).getD 0 default).long = some 5
    ∧ (parse_applications [c6row]).length = 1
    ∧ (import_applications [c6row] h1b0).geo = [] := by
  decide

/-- C6 amended: a geo point is written exactly when both coordinates are
truthy in Python's sense — present, non-null, and non-zero; a coordinate
with no parseable number (coerced to `None`) therefore skips the geo
write entirely, and the rest of the record's writes (application hash
and the three allocation scripts) occur in every case. -/
theorem geo_write_iff_truthy (a : Application) (r : Row) (s : String) :
    ((∃ lo la, H1BCmd.geoadd "application_location" lo la a.id ∈ save_application a)
      ↔ (truthyF a.lat && truthyF a.long) = true)
    ∧ H1BCmd.hmsetApp a.id a ∈ save_application a
    ∧ H1BCmd.empScript a.employer_name a.id a.prevailing_wage ∈ save_application a
    ∧ H1BCmd.socScript a.soc_name a.id a.prevailing_wage ∈ save_application a
    ∧ H1BCmd.jobScript a.job_title a.id a.prevailing_wage ∈ save_application a
    ∧ (r.lat = Raw.nan s →
        ∀ b ∈ parse_applications [r], ∀ lo la m,
          H1BCmd.geoadd "application_location" lo la m ∉ save_application b)
    ∧ (r.long = Raw.nan s →
        ∀ b ∈ parse_applications [r], ∀ lo la m,
          H1BCmd.geoadd "application_location" lo la m ∉ save_application b) := by
  refine ⟨?_, ?_, ?_, ?_, ?_, ?_, ?_⟩
  · cases h : truthyF a.lat && truthyF a.long
    · constructor
      · rintro ⟨lo, la, hmem⟩
        simp [save_application, h] at hmem
      · intro hfalse
        cases hfalse
    · constructor
      · intro _
        rfl
      · intro _
        exact ⟨a.long.getD 0, a.lat.getD 0, by simp [save_application, h]⟩
  · cases h : truthyF a.lat && truthyF a.long <;> simp [save_application, h]
  · cases h : truthyF a.lat && truthyF a.long <;> simp [save_application, h]
  · cases h : truthyF a.lat && truthyF a.long <;> simp [save_application, h]
  · cases h : truthyF a.lat && truthyF a.long <;> simp [save_application, h]
  · intro hlat b hb lo la m hmem
    by_cases hid : r.id = ""
    · simp [parse_applications, hid] at hb
    · simp only [parse_applications, List.filterMap_cons, List.filterMap_nil, hid,
        if_false] at hb
      simp only [List.mem_cons, List.not_mem_nil, or_false] at hb
      subst hb
      simp [save_application, truthyF, _coerce_float, hlat] at hmem
  · intro hlong b hb lo la m hmem
    by_cases hid : r.id = ""
    · simp [parse_applications, hid] at hb
    · simp only [parse_applications, List.filterMap_cons, List.filterMap_nil, hid,
        if_false] at hb
      simp only [List.mem_cons, List.not_mem_nil, or_false] at hb
      subst hb
      simp [save_application, truthyF, _coerce_float, hlong] at hmem

/-- Concrete witness for the amended C6: a record whose coordinate cells
do not parse keeps all its non-geo writes and gets no geo write. -/
theorem geo_write_iff_truthy_witness :
    H1BCmd.geoadd "application_location" 1 2 "A1"
      ∉ save_application ((parse_applications [c8row]).getD 0 default) :=
  (geo_write_iff_truthy default c8row "NA").2.2.2.2.2.1 (by decide)
    ((parse_applications [c8row]).getD 0 default) (by decide) 1 2 "A1"

/-- C8: a monetary field whose value fails to parse is replaced by the
sentinel −1 (never an error, never a drop), and the record's entry
appears in the employer's ranked set with score −1. -/
theorem wage_sentinel_default (r : Row) (s : String)
    (hw : r.prevailing_wage = Raw.nan s) (hid : r.id ≠ "") :
    _coerce_float (Raw.nan s) (some (-1)) = some (-1)
    ∧ (parse_applications [r]).length = 1
    ∧ hlookup (import_applications [r] h1b0).emp.name_to_id r.employer_name = some 1
    ∧ hlookup ((import_applications [r] h1b0).emp.wages 1) r.id = some (-1) := by
  have hparse : parse_applications [r] =
      [{ id := r.id, case_status := r.case_status, employer_name := r.employer_name,
         soc_name := r.soc_name, job_title := r.job_title,
         full_time_position := r.full_time_position,
         prevailing_wage := -1,
         year := r.year, worksite := r.worksite,
         long := _coerce_float r.long none, lat := _coerce_float r.lat none }] := by
    simp [parse_applications, hid, hw, _coerce_float]
  have hreqs : empReqs (save_application
      { id := r.id, case_status := r.case_status, employer_name := r.employer_name,
        soc_name := r.soc_name, job_title := r.job_title,
        full_time_position := r.full_time_position,
        prevailing_wage := -1,
        year := r.year, worksite := r.worksite,
        long := _coerce_float r.long none, lat := _coerce_float r.lat none })
      = [⟨r.employer_name, r.id, -1⟩] := by
    rw [save_application, empReqs_append]
    cases h : truthyF (_coerce_float r.lat none) && truthyF (_coerce_float r.long none) <;>
      simp [empReqs]
  have hemp : (import_applications [r] h1b0).emp
      = (runAllocs alloc0 [⟨r.employer_name, r.id, -1⟩]).2 := by
    rw [import_applications, hparse, List.flatMap_cons, List.flatMap_nil,
      List.append_nil, runH1BCmds_emp, hreqs]
    rfl
  refine ⟨rfl, by rw [hparse]; rfl, ?_, ?_⟩
  · rw [hemp]
    simp [runAllocs, allocate, alloc0, hlookup]
  · rw [hemp]
    simp [runAllocs, allocate, alloc0, hlookup, zput]

/-- Concrete witness for C8 (Scenario B): the record with wage `"N/A"`
lands in the employer's ranked set with score −1. -/
theorem wage_sentinel_default_witness :
    hlookup ((import_applications [c8row] h1b0).emp.wages 1) "A1" = some (-1) := by
  have h := (wage_sentinel_default c8row "N/A" (by decide) (by decide)).2.2.2
  simpa using h

/-! ### Claim theorems C7 and C9 -/

lemma _post_type_spec (s : String) (n : Int) (h : pyInt (pyStrip s) = some n) :
    _post_type s
      = some (if n = 1 then some "questions" else if n = 2 then some "answers" else none) := by
  simp [_post_type, h]

lemma _post_type_one : _post_type "1" = some (some "questions") := by decide

lemma tagsBlock_of_no_tags (post : List (String × String)) (pt : String)
    (h : hlookup post "tags" = none) : tagsBlock post pt = some (post, []) := by
  simp [tagsBlock, h]

lemma ownerBlock_of_no_owner (post' : List (String × String)) (pt : String)
    (h : hlookup post' "owneruserid" = none) : ownerBlock post' pt = some [] := by
  simp [ownerBlock, h]

/-- C7 counterexample: a stackexchange post record of supported type 1
that lacks its identifying `Id` attribute is not silently dropped —
`_import_post` raises a `KeyError` (modelled as `none`) instead of
emitting no operations. -/
theorem missing_id_errors_counterexample : _import_post c7post = none := by
  decide

/-- A key absent from an association list is still absent after any
filtering (modelling that `del post['tags']` cannot create an `id`). -/
lemma hlookup_filter_none {α : Type} (l : List (String × α)) (f : String × α → Bool)
    (k : String) (h : hlookup l k = none) : hlookup (l.filter f) k = none := by
  rw [hlookup_eq_none] at h ⊢
  intro hmem
  apply h
  obtain ⟨p, hp, hpk⟩ := List.mem_map.mp hmem
  rw [← hpk]
  exact List.mem_map_of_mem Prod.fst (List.mem_of_mem_filter hp)

/-- On a record without an `id` field, the tags block either raises (its
question branch reads `post['id']`) or returns a record that still has
no `id` field. -/
lemma tagsBlock_cases (post : List (String × String)) (pt : String)
    (hid : hlookup post "id" = none) :
    tagsBlock post pt = none
    ∨ ∃ q c, tagsBlock post pt = some (q, c) ∧ hlookup q "id" = none := by
  cases ht : hlookup post "tags" with
  | none => exact Or.inr ⟨post, [], by simp [tagsBlock, ht], hid⟩
  | some tagstr =>
      have hid' : hlookup (post.filter (fun p => p.1 != "tags")) "id" = none :=
        hlookup_filter_none post _ "id" hid
      cases hparse : _parse_tags tagstr with
      | none =>
          exact Or.inr ⟨post.filter (fun p => p.1 != "tags"), [],
            by simp [tagsBlock, ht, hparse], hid'⟩
      | some tags =>
          cases hq : pt == "questions" with
          | true =>
              left
              simp [tagsBlock, ht, hparse, hq, hid']
          | false =>
              exact Or.inr ⟨post.filter (fun p => p.1 != "tags"), [],
                by simp [tagsBlock, ht, hparse, hq], hid'⟩

/-- On a record without an `id` field, the owner block either raises (it
reads `post['id']`) or queues nothing. -/
lemma ownerBlock_id_none (q : List (String × String)) (pt : String)
    (hid : hlookup q "id" = none) :
    ownerBlock q pt = none ∨ ownerBlock q pt = some [] := by
  cases ho : hlookup q "owneruserid" with
  | none =>
      right
      simp [ownerBlock, ho]
  | some o =>
      left
      simp [ownerBlock, ho, hid]

/-- Any post of supported type (code 1 or 2) that lacks its `id` field
makes `_import_post` raise a `KeyError`, whatever other fields it has:
every control path reads `post['id']`. -/
lemma _import_post_missing_id (post : List (String × String)) (s : String) (n : Int)
    (hpt : hlookup post "posttypeid" = some s)
    (hn : pyInt (pyStrip s) = some n)
    (hsupp : n = 1 ∨ n = 2)
    (hid : hlookup post "id" = none) :
    _import_post post = none := by
  have hptype : ∃ pt, _post_type s = some (some pt) := by
    rcases hsupp with rfl | rfl
    · exact ⟨"questions", by simp [_post_type, hn]⟩
    · exact ⟨"answers", by simp [_post_type, hn]⟩
  obtain ⟨pt, hptype⟩ := hptype
  rcases tagsBlock_cases post pt hid with htb | ⟨q, c, htb, hqid⟩
  · simp [_import_post, hpt, hptype, htb]
  · rcases ownerBlock_id_none q pt hqid with hob | hob
    · simp [_import_post, hpt, hptype, htb, hob]
    · simp [_import_post, hpt, hptype, htb, hob, hqid]

/-- C7 amended: in the h1b pipeline a record whose identifying field is
empty is silently dropped before any store operation is emitted (nothing
is parsed, nothing is written, no counter changes); in the stackexchange
pipeline a post record of supported type (code 1 or 2) lacking its
identifying field — whatever its other fields — raises a key-lookup
error rather than being silently dropped. -/
theorem missing_id_amended (rows : List Row) (r : Row) (db : H1BDB)
    (post : List (String × String)) (s : String) (n : Int)
    (hr : r.id = "")
    (hpt : hlookup post "posttypeid" = some s)
    (hn : pyInt (pyStrip s) = some n)
    (hsupp : n = 1 ∨ n = 2)
    (hid : hlookup post "id" = none) :
    parse_applications (r :: rows) = parse_applications rows
    ∧ import_applications [r] db = db
    ∧ _import_post post = none := by
  refine ⟨?_, ?_, _import_post_missing_id post s n hpt hn hsupp hid⟩
  · simp [parse_applications, hr]
  · simp [import_applications, parse_applications, hr, runH1BCmds]

/-- Concrete witness for the amended C7: an empty-id CSV row changes
nothing, a bare type-1 post without `Id` raises, and so does a tagged,
owned type-2 post without `Id`. -/
theorem missing_id_amended_witness :
    parse_applications [c7row] = parse_applications []
    ∧ import_applications [c7row] h1b0 = h1b0
    ∧ _import_post c7post = none
    ∧ _import_post c7post2 = none :=
  ⟨(missing_id_amended [] c7row h1b0 c7post "1" 1 (by decide) (by decide) (by decide)
      (Or.inl rfl) (by decide)).1,
   (missing_id_amended [] c7row h1b0 c7post "1" 1 (by decide) (by decide) (by decide)
      (Or.inl rfl) (by decide)).2.1,
   (missing_id_amended [] c7row h1b0 c7post "1" 1 (by decide) (by decide) (by decide)
      (Or.inl rfl) (by decide)).2.2,
   (missing_id_amended [] c7row h1b0 c7post2 "2" 2 (by decide) (by decide) (by decide)
      (Or.inr rfl) (by decide)).2.2⟩

/-- C9: a post whose discriminant code maps to neither "questions" nor
"answers" is silently skipped — no commands are queued, the store is
unchanged, and no error is raised; a post with code 1 is written as a
question hash and one with code 2 as an answer hash. -/
theorem post_type_discrimination (post : List (String × String)) (db : SEDB)
    (s i : String) (n : Int) :
    (hlookup post "posttypeid" = some s → pyInt (pyStrip s) = some n → n ≠ 1 → n ≠ 2 →
      _import_post post = some [] ∧ import_posts [post] db = some db)
    ∧ (hlookup post "posttypeid" = some s → pyInt (pyStrip s) = some 1 →
        hlookup post "id" = some i → hlookup post "tags" = none →
        hlookup post "owneruserid" = none →
        _import_post post = some [SECmd.hmset ("questions:" ++ i) post])
    ∧ (hlookup post "posttypeid" = some s → pyInt (pyStrip s) = some 2 →
        hlookup post "id" = some i → hlookup post "tags" = none →
        hlookup post "owneruserid" = none → hlookup post "parentid" = none →
        _import_post post = some [SECmd.hmset ("answers:" ++ i) post]) := by
  refine ⟨?_, ?_, ?_⟩
  · intro hpt htoi hn1 hn2
    have himp : _import_post post = some [] := by
      simp [_import_post, hpt, _post_type_spec s n htoi, hn1, hn2]
    refine ⟨himp, ?_⟩
    simp [import_posts, cmdsOfAll, himp, runCmds]
  · intro hpt htoi hid htags howner
    have h1 : _post_type s = some (some "questions") := by
      simpa using _post_type_spec s 1 htoi
    simp [_import_post, hpt, h1, tagsBlock_of_no_tags post _ htags,
      ownerBlock_of_no_owner post _ howner, hid, ansCmds]
  · intro hpt htoi hid htags howner hpar
    have h2 : _post_type s = some (some "answers") := by
      simpa using _post_type_spec s 2 htoi
    simp [_import_post, hpt, h2, tagsBlock_of_no_tags post _ htags,
      ownerBlock_of_no_owner post _ howner, hid, ansCmds, hpar]

/-- Concrete witness for C9: code 3 queues nothing and leaves the store
unchanged; codes 1 and 2 write question / answer hashes. -/
theorem post_type_discrimination_witness :
    (_import_post c9skip = some [] ∧ import_posts [c9skip] sedb0 = some sedb0)
    ∧ _import_post c9q = some [SECmd.hmset ("questions:" ++ "7") c9q]
    ∧ _import_post c9a = some [SECmd.hmset ("answers:" ++ "8") c9a] :=
  ⟨(post_type_discrimination c9skip sedb0 "3" "7" 3).1 (by decide) (by decide)
      (by decide) (by decide),
   (post_type_discrimination c9q sedb0 "1" "7" 1).2.1 (by decide) (by decide)
      (by decide) (by decide) (by decide),
   (post_type_discrimination c9a sedb0 "2" "8" 2).2.2 (by decide) (by decide)
      (by decide) (by decide) (by decide) (by decide)⟩

/-! ### Claim theorem C10: symmetry of `linked_questions` -/

lemma string_data_append (s t : String) : (s ++ t).data = s.data ++ t.data := rfl

lemma lqKey_inj {a b : String} (h : lqKey a = lqKey b) : a = b := by
  have hd := congrArg String.data h
  simp only [lqKey, string_data_append] at hd
  have h1 : ("questions:".data ++ a.data) = ("questions:".data ++ b.data) :=
    List.append_cancel_right hd
  have h2 : a.data = b.data := List.append_cancel_left h1
  cases a
  cases b
  exact congrArg String.mk h2

lemma mem_saddL (l : List String) (x y : String) :
    y ∈ saddL l x ↔ y = x ∨ y ∈ l := by
  by_cases h : x ∈ l
  · simp only [saddL, h, if_true]
    constructor
    · exact Or.inr
    · rintro (rfl | hy)
      · exact h
      · exact hy
  · simp [saddL, h, List.mem_cons]

lemma sets_applySECmd_sadd (db : SEDB) (k m k' x : String) :
    x ∈ (applySECmd db (SECmd.sadd k m)).sets k'
      ↔ (k' = k ∧ x = m) ∨ x ∈ db.sets k' := by
  by_cases h : k' = k
  · subst h
    simp [applySECmd, mem_saddL]
  · simp [applySECmd, h]

lemma runCmds_append (c1 c2 : List SECmd) (db : SEDB) :
    runCmds db (c1 ++ c2) = runCmds (runCmds db c1) c2 := by
  induction c1 generalizing db with
  | nil => simp [runCmds]
  | cons c rest ih => simp [runCmds, ih]

lemma cmdsOfAll_cons_run {α : Type} (f : α → Option (List SECmd)) (x : α)
    (xs : List α) (db : SEDB) (c : List SECmd) (hfx : f x = some c) :
    (cmdsOfAll f (x :: xs)).map (runCmds db)
      = (cmdsOfAll f xs).map (runCmds (runCmds db c)) := by
  cases hall : cmdsOfAll f xs with
  | none => simp [cmdsOfAll, hfx, hall]
  | some rest => simp [cmdsOfAll, hfx, hall, runCmds_append]

lemma import_linked_mem (links : List (List (String × String))) (db db' : SEDB)
    (h : import_linked_posts links db = some db') (a b : String) :
    b ∈ db'.sets (lqKey a)
      ↔ b ∈ db.sets (lqKey a)
        ∨ ∃ p ∈ links,
            (hlookup p "postid" = some a ∧ hlookup p "relatedpostid" = some b)
            ∨ (hlookup p "postid" = some b ∧ hlookup p "relatedpostid" = some a) := by
  induction links generalizing db with
  | nil =>
      simp only [import_linked_posts, cmdsOfAll] at h
      simp only [Option.map] at h
      have hdb : runCmds db [] = db' := Option.some.inj h
      rw [← hdb]
      simp [runCmds]
  | cons p ps ih =>
      cases hx : hlookup p "postid" with
      | none =>
          rw [import_linked_posts] at h
          simp [cmdsOfAll, _import_linked_post, hx] at h
      | some x =>
          cases hy : hlookup p "relatedpostid" with
          | none =>
              rw [import_linked_posts] at h
              simp [cmdsOfAll, _import_linked_post, hx, hy] at h
          | some y =>
              have hc : _import_linked_post p
                  = some [SECmd.sadd (lqKey x) y, SECmd.sadd (lqKey y) x] := by
                simp [_import_linked_post, hx, hy]
              rw [import_linked_posts, cmdsOfAll_cons_run _ p ps db _ hc] at h
              rw [ih _ h]
              have hmid : b ∈ (runCmds db
                  [SECmd.sadd (lqKey x) y, SECmd.sadd (lqKey y) x]).sets (lqKey a)
                  ↔ (a = y ∧ b = x) ∨ (a = x ∧ b = y) ∨ b ∈ db.sets (lqKey a) := by
                show b ∈ (applySECmd (applySECmd db (SECmd.sadd (lqKey x) y))
                    (SECmd.sadd (lqKey y) x)).sets (lqKey a) ↔ _
                rw [sets_applySECmd_sadd, sets_applySECmd_sadd]
                constructor
                · rintro (⟨hk, rfl⟩ | ⟨hk, rfl⟩ | hz)
                  · exact Or.inl ⟨lqKey_inj hk, rfl⟩
                  · exact Or.inr (Or.inl ⟨lqKey_inj hk, rfl⟩)
                  · exact Or.inr (Or.inr hz)
                · rintro (⟨rfl, rfl⟩ | ⟨rfl, rfl⟩ | hz)
                  · exact Or.inl ⟨rfl, rfl⟩
                  · exact Or.inr (Or.inl ⟨rfl, rfl⟩)
                  · exact Or.inr (Or.inr hz)
              rw [hmid]
              constructor
              · rintro ((⟨rfl, rfl⟩ | ⟨rfl, rfl⟩ | hz) | ⟨q, hq, hcase⟩)
                · exact Or.inr ⟨p, List.mem_cons_self p ps, Or.inr ⟨hx, hy⟩⟩
                · exact Or.inr ⟨p, List.mem_cons_self p ps, Or.inl ⟨hx, hy⟩⟩
                · exact Or.inl hz
                · exact Or.inr ⟨q, List.mem_cons_of_mem p hq, hcase⟩
              · rintro (hz | ⟨q, hq, hcase⟩)
                · exact Or.inl (Or.inr (Or.inr hz))
                · rcases List.mem_cons.mp hq with rfl | hq'
                  · rcases hcase with ⟨ha, hb⟩ | ⟨hb, ha⟩
                    · have h1 : x = a := Option.some.inj (hx.symm.trans ha)
                      have h2 : y = b := Option.some.inj (hy.symm.trans hb)
                      exact Or.inl (Or.inr (Or.inl ⟨h1.symm, h2.symm⟩))
                    · have h1 : x = b := Option.some.inj (hx.symm.trans hb)
                      have h2 : y = a := Option.some.inj (hy.symm.trans ha)
                      exact Or.inl (Or.inl ⟨h2.symm, h1.symm⟩)
                  · exact Or.inr ⟨q, hq', hcase⟩

/-- C10: after ingesting post-link records from an empty store, `b` is a
member of `a`'s `linked_questions` set iff some ingested link record
connects `a` and `b` in either direction; the relation is symmetric. -/
theorem linked_questions_symmetric (links : List (List (String × String))) (db' : SEDB)
    (h : import_linked_posts links sedb0 = some db') :
    (∀ a b : String, b ∈ db'.sets (lqKey a)
      ↔ ∃ p ∈ links,
          (hlookup p "postid" = some a ∧ hlookup p "relatedpostid" = some b)
          ∨ (hlookup p "postid" = some b ∧ hlookup p "relatedpostid" = some a))
    ∧ (∀ a b : String, b ∈ db'.sets (lqKey a) ↔ a ∈ db'.sets (lqKey b)) := by
  have hmem := fun a b => import_linked_mem links sedb0 db' h a b
  constructor
  · intro a b
    rw [hmem a b]
    simp [sedb0]
  · intro a b
    rw [hmem a b, hmem b a]
    simp only [sedb0, List.not_mem_nil, false_or]
    constructor <;>
      (rintro ⟨p, hp, hcase⟩; exact ⟨p, hp, hcase.symm⟩)

/-- Concrete witness for C10: one link record between questions 3 and 4
produces both memberships. -/
theorem linked_questions_symmetric_witness :
    "4" ∈ c10db.sets (lqKey "3") ∧ "3" ∈ c10db.sets (lqKey "4") := by
  have h := linked_questions_symmetric c10links c10db (by rfl)
  refine ⟨?_, ?_⟩
  · exact (h.1 "3" "4").mpr
      ⟨[("postid", "3"), ("relatedpostid", "4")], by simp [c10links],
        Or.inl ⟨by decide, by decide⟩⟩
  · exact (h.1 "4" "3").mpr
      ⟨[("postid", "3"), ("relatedpostid", "4")], by simp [c10links],
        Or.inr ⟨by decide, by decide⟩⟩

/-! ### Re-run analysis: write-trace characterisations (C5) -/

lemma zput_lookup {α : Type} (l : List (String × α)) (m m' : String) (v : α) :
    hlookup (zput l m v) m' = if m' = m then some v else hlookup l m' := by
  by_cases h : m' = m
  · subst h
    simp [zput_self]
  · simp [h, zput_other l m m' v h]

lemma zsets_runCmds (cmds : List SECmd) (db : SEDB) (k m : String) :
    hlookup ((runCmds db cmds).zsets k) m
      = match lastZ cmds k m with
        | some v => some v
        | none => hlookup (db.zsets k) m := by
  induction cmds generalizing db with
  | nil => simp [runCmds, lastZ]
  | cons c rest ih =>
      have hrun : runCmds db (c :: rest) = runCmds (applySECmd db c) rest := rfl
      cases c with
      | zadd k' sc m' =>
          have hstep : hlookup ((applySECmd db (SECmd.zadd k' sc m')).zsets k) m
              = if k = k' ∧ m = m' then some sc else hlookup (db.zsets k) m := by
            by_cases hk : k = k'
            · subst hk
              simp [applySECmd, zput_lookup]
            · simp [applySECmd, hk]
          rw [hrun, ih, hstep]
          cases hl : lastZ rest k m with
          | some v => simp [lastZ, hl]
          | none =>
              simp only [lastZ, hl]
              split <;> rfl
      | hmset k' kvs => rw [hrun, ih]; rfl
      | sadd k' x' => rw [hrun, ih]; rfl
      | zincrby k' m' amt => rw [hrun, ih]; rfl
      | lpush k' v => rw [hrun, ih]; rfl
      | ltrim k' a b => rw [hrun, ih]; rfl

lemma zsets_rerun (cmds : List SECmd) (db : SEDB) (k m : String) :
    hlookup ((runCmds (runCmds db cmds) cmds).zsets k) m
      = hlookup ((runCmds db cmds).zsets k) m := by
  rw [zsets_runCmds cmds (runCmds db cmds) k m]
  cases hl : lastZ cmds k m with
  | some v => rw [zsets_runCmds cmds db k m, hl]
  | none => rfl

lemma mem_sets_runCmds (cmds : List SECmd) (db : SEDB) (k x : String) :
    x ∈ (runCmds db cmds).sets k ↔ hasSadd cmds k x ∨ x ∈ db.sets k := by
  induction cmds generalizing db with
  | nil => simp [runCmds, hasSadd]
  | cons c rest ih =>
      have hrun : runCmds db (c :: rest) = runCmds (applySECmd db c) rest := rfl
      cases c with
      | sadd k' x' =>
          rw [hrun, ih, sets_applySECmd_sadd]
          show _ ↔ ((k = k' ∧ x = x') ∨ hasSadd rest k x) ∨ _
          tauto
      | zadd k' sc m' => rw [hrun, ih]; exact Iff.rfl
      | hmset k' kvs => rw [hrun, ih]; exact Iff.rfl
      | zincrby k' m' amt => rw [hrun, ih]; exact Iff.rfl
      | lpush k' v => rw [hrun, ih]; exact Iff.rfl
      | ltrim k' a b => rw [hrun, ih]; exact Iff.rfl

lemma sets_rerun (cmds : List SECmd) (db : SEDB) (k x : String) :
    x ∈ (runCmds (runCmds db cmds) cmds).sets k ↔ x ∈ (runCmds db cmds).sets k := by
  rw [mem_sets_runCmds cmds (runCmds db cmds) k x, mem_sets_runCmds cmds db k x]
  tauto

lemma zincrbyL_lookup_self (l : List (String × Int)) (m : String) (amt : Int) :
    hlookup (zincrbyL l m amt) m = some ((hlookup l m).getD 0 + amt) := by
  cases h : hlookup l m with
  | some v => simp [zincrbyL, h, zput_self]
  | none => simp [zincrbyL, h, hlookup]

lemma zincrbyL_lookup_other (l : List (String × Int)) (m m' : String) (amt : Int)
    (hm : m' ≠ m) : hlookup (zincrbyL l m amt) m' = hlookup l m' := by
  cases h : hlookup l m with
  | some v => simp [zincrbyL, h, zput_other l m m' _ hm]
  | none => simp [zincrbyL, h, hlookup, Ne.symm hm]

lemma incrSum_of_not_hasIncr (cmds : List SECmd) (k m : String)
    (h : hasIncr cmds k m = false) : incrSum cmds k m = 0 := by
  induction cmds with
  | nil => rfl
  | cons c rest ih =>
      cases c with
      | zincrby k' m' amt =>
          rw [hasIncr] at h
          rw [incrSum]
          by_cases hc : k = k' ∧ m = m'
          · exfalso
            obtain ⟨rfl, rfl⟩ := hc
            simp at h
          · rw [if_neg hc]
            simp only [Bool.or_eq_false_iff] at h
            rw [zero_add]
            exact ih h.2
      | hmset k' kvs => exact ih h
      | zadd k' sc m' => exact ih h
      | sadd k' x' => exact ih h
      | lpush k' v => exact ih h
      | ltrim k' a b => exact ih h

lemma zcounts_runCmds (cmds : List SECmd) (db : SEDB) (k m : String) :
    hlookup ((runCmds db cmds).zcounts k) m
      = if hasIncr cmds k m
        then some ((hlookup (db.zcounts k) m).getD 0 + incrSum cmds k m)
        else hlookup (db.zcounts k) m := by
  induction cmds generalizing db with
  | nil => simp [runCmds, hasIncr]
  | cons c rest ih =>
      have hrun : runCmds db (c :: rest) = runCmds (applySECmd db c) rest := rfl
      cases c with
      | zincrby k' m' amt =>
          rw [hrun, ih]
          by_cases h1 : k = k'
          · subst h1
            by_cases h2 : m = m'
            · subst h2
              have hdb1 : hlookup ((applySECmd db (SECmd.zincrby k m amt)).zcounts k) m
                  = some ((hlookup (db.zcounts k) m).getD 0 + amt) := by
                simp [applySECmd, zincrbyL_lookup_self]
              have hhead : hasIncr (SECmd.zincrby k m amt :: rest) k m = true := by
                rw [hasIncr]
                simp
              have hsum : incrSum (SECmd.zincrby k m amt :: rest) k m
                  = amt + incrSum rest k m := by
                rw [incrSum, if_pos ⟨rfl, rfl⟩]
              rw [hdb1, hhead, hsum]
              cases hri : hasIncr rest k m with
              | true =>
                  simp only [hri, if_true, Option.getD_some]
                  congr 1
                  omega
              | false =>
                  have hz := incrSum_of_not_hasIncr rest k m hri
                  simp only [hri, hz, if_true]
                  simp only [Bool.false_eq_true, if_false]
                  congr 1
                  omega
            · have hdb1 : hlookup ((applySECmd db (SECmd.zincrby k m' amt)).zcounts k) m
                  = hlookup (db.zcounts k) m := by
                simp [applySECmd, zincrbyL_lookup_other _ _ _ _ h2]
              have hhead : hasIncr (SECmd.zincrby k m' amt :: rest) k m = hasIncr rest k m := by
                rw [hasIncr]
                simp [h2]
              have hsum : incrSum (SECmd.zincrby k m' amt :: rest) k m = incrSum rest k m := by
                rw [incrSum, if_neg (by tauto), zero_add]
              rw [hdb1, hhead, hsum]
          · have hdb1 : hlookup ((applySECmd db (SECmd.zincrby k' m' amt)).zcounts k) m
                = hlookup (db.zcounts k) m := by
              simp [applySECmd, h1]
            have hhead : hasIncr (SECmd.zincrby k' m' amt :: rest) k m = hasIncr rest k m := by
              rw [hasIncr]
              simp [h1]
            have hsum : incrSum (SECmd.zincrby k' m' amt :: rest) k m = incrSum rest k m := by
              rw [incrSum, if_neg (by tauto), zero_add]
            rw [hdb1, hhead, hsum]
      | hmset k' kvs => rw [hrun, ih]; rfl
      | zadd k' sc m' => rw [hrun, ih]; rfl
      | sadd k' x' => rw [hrun, ih]; rfl
      | lpush k' v => rw [hrun, ih]; rfl
      | ltrim k' a b => rw [hrun, ih]; rfl

lemma zcounts_rerun_ne (cmds : List SECmd) (db : SEDB) (k m : String)
    (h1 : hasIncr cmds k m = true) (h2 : incrSum cmds k m ≠ 0) :
    hlookup ((runCmds (runCmds db cmds) cmds).zcounts k) m
      ≠ hlookup ((runCmds db cmds).zcounts k) m := by
  have hg : hlookup ((runCmds db cmds).zcounts k) m
      = some ((hlookup (db.zcounts k) m).getD 0 + incrSum cmds k m) := by
    rw [zcounts_runCmds cmds db k m]
    simp [h1]
  have hout : hlookup ((runCmds (runCmds db cmds) cmds).zcounts k) m
      = some ((hlookup ((runCmds db cmds).zcounts k) m).getD 0 + incrSum cmds k m) := by
    rw [zcounts_runCmds cmds (runCmds db cmds) k m]
    simp [h1]
  rw [hout, hg]
  simp only [Option.getD_some]
  intro heq
  have := Option.some.inj heq
  omega

lemma putAll_lookup {α : Type} (ws l : List (String × α)) (m : String) :
    hlookup (putAll l ws) m
      = match lastPut ws m with
        | some v => some v
        | none => hlookup l m := by
  induction ws generalizing l with
  | nil => simp [putAll, lastPut]
  | cons p rest ih =>
      obtain ⟨m', v⟩ := p
      rw [show putAll l ((m', v) :: rest) = putAll (zput l m' v) rest from rfl, ih]
      cases hl : lastPut rest m with
      | some w => simp [lastPut, hl]
      | none =>
          simp only [lastPut, hl, zput_lookup]
          split <;> rfl

lemma socReqs_append (l1 l2 : List H1BCmd) :
    socReqs (l1 ++ l2) = socReqs l1 ++ socReqs l2 := by
  induction l1 with
  | nil => simp [socReqs]
  | cons c rest ih => cases c <;> simp [socReqs, ih]

lemma jobReqs_append (l1 l2 : List H1BCmd) :
    jobReqs (l1 ++ l2) = jobReqs l1 ++ jobReqs l2 := by
  induction l1 with
  | nil => simp [jobReqs]
  | cons c rest ih => cases c <;> simp [jobReqs, ih]

lemma runH1BCmds_soc (cmds : List H1BCmd) (db : H1BDB) :
    (runH1BCmds db cmds).soc = (runAllocs db.soc (socReqs cmds)).2 := by
  induction cmds generalizing db with
  | nil => simp [runH1BCmds, socReqs, runAllocs]
  | cons c rest ih =>
      cases c <;> simp [runH1BCmds, applyH1BCmd, socReqs, runAllocs, ih]

lemma runH1BCmds_job (cmds : List H1BCmd) (db : H1BDB) :
    (runH1BCmds db cmds).job = (runAllocs db.job (jobReqs cmds)).2 := by
  induction cmds generalizing db with
  | nil => simp [runH1BCmds, jobReqs, runAllocs]
  | cons c rest ih =>
      cases c <;> simp [runH1BCmds, applyH1BCmd, jobReqs, runAllocs, ih]

lemma runH1BCmds_geo (cmds : List H1BCmd) (db : H1BDB) :
    (runH1BCmds db cmds).geo = putAll db.geo (geoWrites cmds) := by
  induction cmds generalizing db with
  | nil => simp [runH1BCmds, geoWrites, putAll]
  | cons c rest ih =>
      cases c <;> simp [runH1BCmds, applyH1BCmd, geoWrites, putAll, ih]

lemma applyW_lookup (ws : List (Nat × String × Int))
    (w : Nat → List (String × Int)) (e : Nat) (m : String) :
    hlookup (applyW w ws e) m
      = match lastW ws e m with
        | some v => some v
        | none => hlookup (w e) m := by
  induction ws generalizing w with
  | nil => simp [applyW, lastW]
  | cons t rest ih =>
      obtain ⟨e', m', v⟩ := t
      rw [show applyW w ((e', m', v) :: rest)
          = applyW (fun j => if j = e' then zput (w j) m' v else w j) rest from rfl, ih]
      cases hl : lastW rest e m with
      | some u => simp [lastW, hl]
      | none =>
          by_cases he : e = e'
          · subst he
            by_cases hm2 : m = m'
            · subst hm2
              simp [lastW, hl, zput_self]
            · simp [lastW, hl, hm2, zput_other (w e) m' m v hm2]
          · simp [lastW, hl, he]

lemma runAllocs_wages (reqs : List AllocReq) (s : AllocState) :
    (runAllocs s reqs).2.wages
      = applyW s.wages (resolveReqs (runAllocs s reqs).2.name_to_id reqs) := by
  induction reqs generalizing s with
  | nil => simp [runAllocs, resolveReqs, applyW]
  | cons r rest ih =>
      have hid : hlookup (runAllocs (allocate s r.name r.appid r.salary).2 rest).2.name_to_id
          r.name = some (allocate s r.name r.appid r.salary).1 :=
        runAllocs_lookup_mono rest _ _ _ (allocate_lookup_self s r.name r.appid r.salary)
      show (runAllocs (allocate s r.name r.appid r.salary).2 rest).2.wages = _
      rw [ih]
      simp only [resolveReqs, List.map_cons]
      rw [show applyW s.wages
          (((hlookup (runAllocs s (r :: rest)).2.name_to_id r.name).getD 0, r.appid, r.salary)
            :: List.map (fun q => ((hlookup (runAllocs s (r :: rest)).2.name_to_id q.name).getD 0,
              q.appid, q.salary)) rest)
          = applyW (fun j => if j = (hlookup (runAllocs s (r :: rest)).2.name_to_id r.name).getD 0
              then zput (s.wages j) r.appid r.salary else s.wages j)
            (List.map (fun q => ((hlookup (runAllocs s (r :: rest)).2.name_to_id q.name).getD 0,
              q.appid, q.salary)) rest) from rfl]
      have hgd : (hlookup (runAllocs s (r :: rest)).2.name_to_id r.name).getD 0
          = (allocate s r.name r.appid r.salary).1 := by
        rw [show (runAllocs s (r :: rest)).2
            = (runAllocs (allocate s r.name r.appid r.salary).2 rest).2 from rfl, hid]
        rfl
      rw [hgd, allocate_wages]
      rfl

lemma runAllocs_existing (reqs : List AllocReq) (s : AllocState)
    (hall : ∀ r ∈ reqs, (hlookup s.name_to_id r.name).isSome = true) :
    (runAllocs s reqs).2.name_to_id = s.name_to_id
    ∧ (runAllocs s reqs).2.counter = s.counter
    ∧ (runAllocs s reqs).2.entities = s.entities := by
  induction reqs generalizing s with
  | nil => exact ⟨rfl, rfl, rfl⟩
  | cons r rest ih =>
      obtain ⟨i, hi⟩ := Option.isSome_iff_exists.mp (hall r (List.mem_cons_self r rest))
      have hmap := allocate_name_to_id_seen s r.name r.appid r.salary i hi
      have hct := allocate_counter_seen s r.name r.appid r.salary i hi
      have hent := allocate_entities_seen s r.name r.appid r.salary i hi
      have hall' : ∀ q ∈ rest,
          (hlookup (allocate s r.name r.appid r.salary).2.name_to_id q.name).isSome = true := by
        intro q hq
        rw [hmap]
        exact hall q (List.mem_cons_of_mem r hq)
      obtain ⟨ha, hb, hc2⟩ := ih (allocate s r.name r.appid r.salary).2 hall'
      exact ⟨by rw [show (runAllocs s (r :: rest)).2.name_to_id
          = (runAllocs (allocate s r.name r.appid r.salary).2 rest).2.name_to_id from rfl,
          ha, hmap],
        by rw [show (runAllocs s (r :: rest)).2.counter
          = (runAllocs (allocate s r.name r.appid r.salary).2 rest).2.counter from rfl,
          hb, hct],
        by rw [show (runAllocs s (r :: rest)).2.entities
          = (runAllocs (allocate s r.name r.appid r.salary).2 rest).2.entities from rfl,
          hc2, hent]⟩

lemma runAllocs_names_present (reqs : List AllocReq) (s : AllocState) :
    ∀ r ∈ reqs, (hlookup (runAllocs s reqs).2.name_to_id r.name).isSome = true := by
  intro r hr
  rw [runAllocs_mem_iff]
  exact Or.inr (List.mem_map_of_mem AllocReq.name hr)

/-- Re-running the same allocation requests on the state they produced
leaves the map, counter and entity hashes unchanged, and leaves every
ranked-set score unchanged. -/
lemma runAllocs_rerun (reqs : List AllocReq) :
    (runAllocs (runAllocs alloc0 reqs).2 reqs).2.name_to_id
        = (runAllocs alloc0 reqs).2.name_to_id
    ∧ (runAllocs (runAllocs alloc0 reqs).2 reqs).2.counter
        = (runAllocs alloc0 reqs).2.counter
    ∧ (runAllocs (runAllocs alloc0 reqs).2 reqs).2.entities
        = (runAllocs alloc0 reqs).2.entities
    ∧ ∀ e m, hlookup ((runAllocs (runAllocs alloc0 reqs).2 reqs).2.wages e) m
        = hlookup ((runAllocs alloc0 reqs).2.wages e) m := by
  have hall : ∀ r ∈ reqs,
      (hlookup (runAllocs alloc0 reqs).2.name_to_id r.name).isSome = true :=
    runAllocs_names_present reqs alloc0
  obtain ⟨hm, hc, he⟩ := runAllocs_existing reqs (runAllocs alloc0 reqs).2 hall
  refine ⟨hm, hc, he, ?_⟩
  intro e m
  have h2 := runAllocs_wages reqs (runAllocs alloc0 reqs).2
  rw [h2, hm, runAllocs_wages reqs alloc0]
  cases hl : lastW (resolveReqs (runAllocs alloc0 reqs).2.name_to_id reqs) e m with
  | some v => simp only [applyW_lookup, hl]
  | none => simp only [applyW_lookup, hl]

/-! ### Claim theorems C5 -/

/-- C5 counterexample: re-running ingestion does NOT leave every ranked
set unchanged — `badges_by_popularity` (updated with `ZINCRBY`) doubles
its score — and the id counters do NOT change, because every natural key
hits the existing branch of the allocation script on the second run. -/
theorem rerun_claim_counterexample :
    badgeScore badgeRun2 ≠ badgeScore badgeRun1
    ∧ badgeScore badgeRun1 = some (some 1)
    ∧ badgeScore badgeRun2 = some (some 2)
    ∧ (h1bRun2 c5rows).emp.counter = 1
    ∧ (h1bRun1 c5rows).emp.counter = 1 := by
  decide

/-- C5 amended: re-running ingestion over an unchanged source leaves the
overwrite-based ranked sets (e.g. `wages_by_application`, the `ZADD`
sorted sets of the posts pipeline), the membership sets, the geo index,
the name→id maps, the entity hashes of the allocator, and the id
counters all with contents equal to those after the first run; what does
change is the increment-based ranked set `badges_by_popularity` (its
scores double) and any bounded recency list that held fewer than 201
entries (its entries are re-pushed). -/
theorem rerun_idempotence_boundary (rows : List Row)
    (posts : List (List (String × String))) (db0 s1 : SEDB)
    (pushes : List String)
    (hposts : import_posts posts db0 = some s1) :
    ((h1bRun2 rows).emp.name_to_id = (h1bRun1 rows).emp.name_to_id
      ∧ (h1bRun2 rows).emp.counter = (h1bRun1 rows).emp.counter
      ∧ (h1bRun2 rows).emp.entities = (h1bRun1 rows).emp.entities
      ∧ ∀ e m, hlookup ((h1bRun2 rows).emp.wages e) m
          = hlookup ((h1bRun1 rows).emp.wages e) m)
    ∧ ((h1bRun2 rows).soc.name_to_id = (h1bRun1 rows).soc.name_to_id
      ∧ (h1bRun2 rows).soc.counter = (h1bRun1 rows).soc.counter
      ∧ (h1bRun2 rows).soc.entities = (h1bRun1 rows).soc.entities
      ∧ ∀ e m, hlookup ((h1bRun2 rows).soc.wages e) m
          = hlookup ((h1bRun1 rows).soc.wages e) m)
    ∧ ((h1bRun2 rows).job.name_to_id = (h1bRun1 rows).job.name_to_id
      ∧ (h1bRun2 rows).job.counter = (h1bRun1 rows).job.counter
      ∧ (h1bRun2 rows).job.entities = (h1bRun1 rows).job.entities
      ∧ ∀ e m, hlookup ((h1bRun2 rows).job.wages e) m
          = hlookup ((h1bRun1 rows).job.wages e) m)
    ∧ (∀ m, hlookup (h1bRun2 rows).geo m = hlookup (h1bRun1 rows).geo m)
    ∧ (import_posts posts s1).isSome = true
    ∧ (∀ s2, import_posts posts s1 = some s2 →
        (∀ k m, hlookup (s2.zsets k) m = hlookup (s1.zsets k) m)
        ∧ (∀ k x, x ∈ s2.sets k ↔ x ∈ s1.sets k))
    ∧ (∀ (cmds : List SECmd) (db : SEDB) (k m : String),
        hasIncr cmds k m = true → incrSum cmds k m ≠ 0 →
        hlookup ((runCmds (runCmds db cmds) cmds).zcounts k) m
          ≠ hlookup ((runCmds db cmds).zcounts k) m)
    ∧ badgeScore badgeRun1 = some (some 1)
    ∧ badgeScore badgeRun2 = some (some 2)
    ∧ (0 < pushes.length → pushes.length < 201 →
        pushes.foldl pushTrim (pushes.foldl pushTrim ([] : List String))
          ≠ pushes.foldl pushTrim ([] : List String)) := by
  have hrun1 : h1bRun1 rows
      = runH1BCmds h1b0 ((parse_applications rows).flatMap save_application) := rfl
  have hrun2 : h1bRun2 rows
      = runH1BCmds (h1bRun1 rows) ((parse_applications rows).flatMap save_application) := rfl
  have hemp1 : (h1bRun1 rows).emp
      = (runAllocs alloc0 (empReqs ((parse_applications rows).flatMap save_application))).2 := by
    rw [hrun1, runH1BCmds_emp]
    rfl
  have hemp2 : (h1bRun2 rows).emp
      = (runAllocs (h1bRun1 rows).emp
          (empReqs ((parse_applications rows).flatMap save_application))).2 := by
    rw [hrun2, runH1BCmds_emp]
  have hsoc1 : (h1bRun1 rows).soc
      = (runAllocs alloc0 (socReqs ((parse_applications rows).flatMap save_application))).2 := by
    rw [hrun1, runH1BCmds_soc]
    rfl
  have hsoc2 : (h1bRun2 rows).soc
      = (runAllocs (h1bRun1 rows).soc
          (socReqs ((parse_applications rows).flatMap save_application))).2 := by
    rw [hrun2, runH1BCmds_soc]
  have hjob1 : (h1bRun1 rows).job
      = (runAllocs alloc0 (jobReqs ((parse_applications rows).flatMap save_application))).2 := by
    rw [hrun1, runH1BCmds_job]
    rfl
  have hjob2 : (h1bRun2 rows).job
      = (runAllocs (h1bRun1 rows).job
          (jobReqs ((parse_applications rows).flatMap save_application))).2 := by
    rw [hrun2, runH1BCmds_job]
  obtain ⟨hem, hec, hee, hew⟩ :=
    runAllocs_rerun (empReqs ((parse_applications rows).flatMap save_application))
  obtain ⟨hsm, hsc, hse, hsw⟩ :=
    runAllocs_rerun (socReqs ((parse_applications rows).flatMap save_application))
  obtain ⟨hjm, hjc, hje, hjw⟩ :=
    runAllocs_rerun (jobReqs ((parse_applications rows).flatMap save_application))
  refine ⟨⟨?_, ?_, ?_, ?_⟩, ⟨?_, ?_, ?_, ?_⟩, ⟨?_, ?_, ?_, ?_⟩, ?_, ?_, ?_,
    fun cmds db k m h1 h2 => zcounts_rerun_ne cmds db k m h1 h2, by decide, by decide, ?_⟩
  · rw [hemp2, hemp1]
    exact hem
  · rw [hemp2, hemp1]
    exact hec
  · rw [hemp2, hemp1]
    exact hee
  · intro e m
    rw [hemp2, hemp1]
    exact hew e m
  · rw [hsoc2, hsoc1]
    exact hsm
  · rw [hsoc2, hsoc1]
    exact hsc
  · rw [hsoc2, hsoc1]
    exact hse
  · intro e m
    rw [hsoc2, hsoc1]
    exact hsw e m
  · rw [hjob2, hjob1]
    exact hjm
  · rw [hjob2, hjob1]
    exact hjc
  · rw [hjob2, hjob1]
    exact hje
  · intro e m
    rw [hjob2, hjob1]
    exact hjw e m
  · intro m
    have hgeo1 : (h1bRun1 rows).geo
        = putAll h1b0.geo (geoWrites ((parse_applications rows).flatMap save_application)) := by
      rw [hrun1, runH1BCmds_geo]
    have hgeo2 : (h1bRun2 rows).geo
        = putAll (h1bRun1 rows).geo
            (geoWrites ((parse_applications rows).flatMap save_application)) := by
      rw [hrun2, runH1BCmds_geo]
    rw [hgeo2, hgeo1]
    cases hl : lastPut (geoWrites ((parse_applications rows).flatMap save_application)) m with
    | some v => simp only [putAll_lookup, hl]
    | none => simp only [putAll_lookup, hl]
  · cases hC : cmdsOfAll _import_post posts with
    | none =>
        rw [import_posts, hC] at hposts
        cases hposts
    | some C =>
        rw [import_posts, hC]
        rfl
  · intro s2 h2
    cases hC : cmdsOfAll _import_post posts with
    | none =>
        rw [import_posts, hC] at hposts
        cases hposts
    | some C =>
        rw [import_posts, hC] at hposts h2
        simp only [Option.map] at hposts h2
        have hs1 : runCmds db0 C = s1 := Option.some.inj hposts
        have hs2 : runCmds s1 C = s2 := Option.some.inj h2
        rw [← hs2, ← hs1]
        exact ⟨fun k m => zsets_rerun C db0 k m, fun k x => sets_rerun C db0 k x⟩
  · intro h1 h2 heq
    have hL1 : pushes.foldl pushTrim ([] : List String) = pushes.reverse.take 201 := by
      simpa using foldl_pushTrim pushes [] (by simp)
    have hlen1 : (pushes.foldl pushTrim ([] : List String)).length = pushes.length := by
      rw [hL1, List.length_take, List.length_reverse]
      omega
    have hL2 := foldl_pushTrim pushes (pushes.foldl pushTrim ([] : List String))
      (by rw [hlen1]; omega)
    have hlen := congrArg List.length heq
    rw [hL2, hlen1, List.length_take, List.length_append, List.length_reverse,
      hlen1] at hlen
    omega

/-- Concrete witness for the amended C5: a one-row h1b source keeps its
counter on a re-run, a one-post source keeps its ranked sets, and a
single-push recency list changes on a re-push. -/
theorem rerun_idempotence_boundary_witness :
    (h1bRun2 c5rows).emp.counter = (h1bRun1 c5rows).emp.counter
    ∧ (∀ k m, hlookup (c5se2.zsets k) m = hlookup (c5se1.zsets k) m)
    ∧ (["a"].foldl pushTrim (["a"].foldl pushTrim ([] : List String))
        ≠ ["a"].foldl pushTrim ([] : List String)) := by
  have h := rerun_idempotence_boundary c5rows c5posts sedb0 c5se1 ["a"] (by rfl)
  exact ⟨h.1.2.1, (h.2.2.2.2.2.1 c5se2 (by rfl)).1,
    h.2.2.2.2.2.2.2.2.2 (by decide) (by decide)⟩

end RedisDumps
